import Mathlib

/-!
Shallow embedding of the buffer core of the iota text editor
(src/src/iota/buffer.rs).

The document text (a GapBuffer of chars in the source) is modelled as a
`List Char`; the cursor and all sizes (Rust `uint`) are `Nat`, with the one
wrapping subtraction the source performs made explicit modulo 2^64; the
signed `int` arguments are `Int`.  An operation of the source that can
panic or index out of bounds is modelled as returning an `Option`, with
`none` standing for the abort.
-/

namespace Iota

/-- A cached line of the buffer: its text content and its index
(struct Line of buffer.rs). -/
structure Line where
  data : List Char
  linenum : Nat
  deriving DecidableEq, Repr

/-- The buffer (struct Buffer of buffer.rs): optional backing path (kept as
its display string), the cached lines, the cursor offset and the text. -/
structure Buffer where
  file_path : Option String
  lines : List Line
  cursor : Nat
  text : List Char
  deriving DecidableEq, Repr

/-- Modelled from the spec: the cursor module that defines `Direction` is
not among the source files; section 4.1 of the spec lists the four movement
directions Up, Down, Left, Right. -/
inductive Direction where
  | Up
  | Down
  | Left
  | Right
  deriving DecidableEq, Repr

/-- Modelled from the spec: `is_left` of the missing cursor module; per
section 4.2 the direction selects which neighboring character is removed,
`Left` being the leftward one. -/
def Direction.is_left : Direction → Bool
  | .Left => true
  | _ => false

/-- 2^64, the modulus of the source's `uint` arithmetic. -/
def U64 : Nat := 2 ^ 64

/-- `a - 1` in wrapping `uint` arithmetic (faithful for `a < 2^64`):
the source computes `self.lines.len() - 1` with no emptiness guard. -/
def usub1 (a : Nat) : Nat := (a + U64 - 1) % U64

namespace Buffer

/-- `Buffer::set_cursor`. -/
def set_cursor (b : Buffer) (location : Nat) : Buffer :=
  { b with cursor := location }

/-- `Buffer::move_cursor`: the source guards the move with
`0 >= idx && idx > self.text.len() as int`. -/
def move_cursor (b : Buffer) (offset : Int) : Buffer :=
  let idx : Int := (b.cursor : Int) + offset
  if 0 ≥ idx ∧ idx > (b.text.length : Int) then b.set_cursor idx.toNat else b

/-- `Buffer::get_status_text`: `format!("{} {}", path.display(), self.cursor)`
when a path is set, `format!("untitled {}", self.cursor)` otherwise. -/
def get_status_text (b : Buffer) : String :=
  match b.file_path with
  | some path => path ++ " " ++ toString b.cursor
  | none => "untitled " ++ toString b.cursor

/-- `Buffer::get_line`: the number of newlines in `text[0..mark]`, or `None`
when `mark` is not below `text.len()`. -/
def get_line (b : Buffer) (mark : Nat) : Option Nat :=
  if mark < b.text.length then some ((b.text.take mark).count '\n') else none

/-- The loop of `Buffer::get_line_idx`: walk the characters with their index
`i`, bump `linenum` at each newline, and return the current index as soon as
`linenum` equals the requested line. -/
def glIdxLoop : List Char → Nat → Int → Int → Option Nat
  | [], _, _, _ => none
  | c :: t, i, linenum, ln =>
    let linenum2 : Int := if c = '\n' then linenum + 1 else linenum
    if linenum2 = ln then some i else glIdxLoop t (i + 1) linenum2 ln

/-- `Buffer::get_line_idx` on the text sequence. -/
def get_line_idx (text : List Char) (ln : Int) : Option Nat :=
  glIdxLoop text 0 0 ln

/-- `Buffer::move_line`: `none` models the `unwrap` panic when
`get_line_idx` finds no line.  The `self.text.len() - 1` subtraction is
reached only with `cursor < text.len()`, hence on nonempty text. -/
def move_line (b : Buffer) (offset : Int) : Option Buffer :=
  match b.get_line b.cursor with
  | none => some b
  | some current =>
    let len := b.text.length - 1
    match b.get_line len with
    | none => some b
    | some last =>
      if (current : Int) < (last : Int) then
        match get_line_idx b.text ((current : Int) + offset) with
        | some i => some { b with cursor := i + 1 }
        | none => none
      else some b

/-- `Buffer::shift_cursor`: `none` models an out-of-bounds index of `text`
(`self.text[self.cursor-1]` / `self.text[self.cursor+1]`) or a panic inside
`move_line`. -/
def shift_cursor (b : Buffer) (direction : Direction) : Option Buffer :=
  match direction with
  | .Up => b.move_line (-1)
  | .Down => b.move_line 1
  | .Left =>
    if b.cursor > 0 then
      match b.text.get? (b.cursor - 1) with
      | some c => if c ≠ '\n' then some { b with cursor := b.cursor - 1 } else some b
      | none => none
    else some b
  | .Right =>
    if b.cursor < b.text.length then
      match b.text.get? (b.cursor + 1) with
      | some c => if c ≠ '\n' then some { b with cursor := b.cursor + 1 } else some b
      | none => none
    else some b

/-- Positional insertion into the text sequence (`GapBuffer::insert`);
the buffer only calls it at `cursor ≤ text.len()` (invariant I1). -/
def listInsertAt (l : List Char) (i : Nat) (c : Char) : List Char :=
  l.take i ++ c :: l.drop i

/-- `Buffer::insert_char`: insert at the cursor, then advance the cursor.
The cached `lines` are not touched by the source. -/
def insert_char (b : Buffer) (ch : Char) : Buffer :=
  { b with text := listInsertAt b.text b.cursor ch, cursor := b.cursor + 1 }

/-- Positional removal from the text sequence (`GapBuffer::remove`):
`none` models an out-of-range index. -/
def listRemoveAt (l : List Char) (i : Nat) : Option (List Char) :=
  if i < l.length then some (l.eraseIdx i) else none

/-- `Buffer::delete_char`: on a leftward direction, return unchanged at
cursor 0, otherwise step the cursor left; then remove at the cursor. -/
def delete_char (b : Buffer) (dir : Direction) : Option Buffer :=
  if dir.is_left then
    if b.cursor = 0 then some b
    else
      match listRemoveAt b.text (b.cursor - 1) with
      | some t => some { b with cursor := b.cursor - 1, text := t }
      | none => none
  else
    match listRemoveAt b.text b.cursor with
    | some t => some { b with text := t }
    | none => none

/-- The loop of `Buffer::get_cursor_screen_offset` over the reversed prefix
`text[0..cursor]`: the source panics (modelled `none`) at the first newline
and returns 0 when the loop ends. -/
def screenOffsetLoop : List Char → Option Nat
  | [] => some 0
  | c :: t => if c = '\n' then none else screenOffsetLoop t

/-- `Buffer::get_cursor_screen_offset`: 0 at cursor 0, else scan the
reversed prefix before the cursor. -/
def get_cursor_screen_offset (b : Buffer) : Option Nat :=
  if b.cursor = 0 then some 0
  else screenOffsetLoop (b.text.take b.cursor).reverse

/-- `Buffer::get_line_at`: `num_lines` is the wrapping `lines.len() - 1`;
`some none` is the source's `None` ("not found"), the outer `none` models
the out-of-bounds index `self.lines[line_num]`. -/
def get_line_at (b : Buffer) (line_num : Nat) : Option (Option Line) :=
  let num_lines := usub1 b.lines.length
  if line_num > num_lines then some none
  else
    match b.lines.get? line_num with
    | some l => some (some l)
    | none => none

/-- `Buffer::get_line_at_mut`: same bounds logic as `get_line_at`. -/
def get_line_at_mut (b : Buffer) (line_num : Nat) : Option (Option Line) :=
  let num_lines := usub1 b.lines.length
  if line_num > num_lines then some none
  else
    match b.lines.get? line_num with
    | some l => some (some l)
    | none => none

end Buffer

/-- The text the cached lines spell out: every `line.data` in order, joined
by a single newline between consecutive lines (spec invariant I2). -/
def joinLines (lines : List Line) : List Char :=
  List.intercalate ['\n'] (lines.map Line.data)

/-- Spec invariant I2: the joined lines reconstruct the text exactly. -/
def I2 (b : Buffer) : Prop := joinLines b.lines = b.text

instance (b : Buffer) : Decidable (I2 b) := by unfold I2; infer_instance

/-- The index of the (k+1)-th newline of a character list (k counted from 0):
the reference point for the behaviour of `Buffer.get_line_idx`. -/
def nthNewline : List Char → Nat → Option Nat
  | [], _ => none
  | c :: t, k =>
    if c = '\n' then
      if k = 0 then some 0 else (nthNewline t (k - 1)).map (· + 1)
    else (nthNewline t k).map (· + 1)

/-- Modelled from the spec words, for comparison with `Buffer.get_line_idx`:
the offset the spec claims for the start of line `ln` — 0 for line 0, one
past the ln-th newline otherwise. -/
def lineStartClaimed (text : List Char) (ln : Nat) : Option Nat :=
  if ln = 0 then some 0 else (nthNewline text (ln - 1)).map (· + 1)

/-! Helper lemmas. -/

lemma usub1_of_pos (a : Nat) (h1 : 1 ≤ a) (h2 : a < U64) : usub1 a = a - 1 := by
  unfold usub1 U64 at *
  omega

lemma usub1_zero : usub1 0 = U64 - 1 := by
  unfold usub1 U64
  omega

lemma glIdxLoop_none_of_lt (l : List Char) : ∀ (i : Nat) (lin ln : Int), ln < lin →
    Buffer.glIdxLoop l i lin ln = none := by
  induction l with
  | nil => intro i lin ln _; rfl
  | cons c t ih =>
    intro i lin ln h
    by_cases hc : c = '\n'
    · simp only [Buffer.glIdxLoop, hc, if_pos]
      rw [if_neg (by omega)]
      exact ih (i + 1) (lin + 1) ln (by omega)
    · simp only [Buffer.glIdxLoop, if_neg hc]
      rw [if_neg (by omega)]
      exact ih (i + 1) lin ln h

lemma glIdxLoop_at_eq (l : List Char) (i : Nat) (lin : Int) :
    Buffer.glIdxLoop l i lin lin =
      match l with
      | [] => none
      | c :: _ => if c = '\n' then none else some i := by
  cases l with
  | nil => rfl
  | cons c t =>
    by_cases hc : c = '\n'
    · simp only [Buffer.glIdxLoop, hc, if_pos]
      rw [if_neg (by omega)]
      exact glIdxLoop_none_of_lt t (i + 1) (lin + 1) lin (by omega)
    · simp [Buffer.glIdxLoop, hc]

lemma glIdxLoop_of_lt (l : List Char) : ∀ (i : Nat) (lin ln : Int), lin < ln →
    Buffer.glIdxLoop l i lin ln = (nthNewline l (ln - lin - 1).toNat).map (· + i) := by
  induction l with
  | nil => intro i lin ln _; rfl
  | cons c t ih =>
    intro i lin ln h
    by_cases hc : c = '\n'
    · by_cases h2 : lin + 1 = ln
      · have hk : (ln - lin - 1).toNat = 0 := by omega
        simp [Buffer.glIdxLoop, hc, hk, nthNewline, h2]
      · have h3 : lin + 1 < ln := by omega
        have hk : (ln - lin - 1).toNat ≠ 0 := by omega
        have hk2 : (ln - lin - 1).toNat - 1 = (ln - (lin + 1) - 1).toNat := by omega
        simp only [Buffer.glIdxLoop, hc, if_pos, nthNewline]
        rw [if_neg h2, if_neg hk, ih (i + 1) (lin + 1) ln h3, hk2]
        cases nthNewline t (ln - (lin + 1) - 1).toNat with
        | none => rfl
        | some a => simp; omega
    · simp only [Buffer.glIdxLoop, if_neg hc, nthNewline]
      rw [if_neg (by omega), ih (i + 1) lin ln h]
      cases nthNewline t (ln - lin - 1).toNat with
      | none => rfl
      | some a => simp; omega

lemma nthNewline_eq_none_iff (l : List Char) : ∀ k : Nat,
    (nthNewline l k = none ↔ l.count '\n' ≤ k) := by
  induction l with
  | nil => intro k; simp [nthNewline]
  | cons c t ih =>
    intro k
    by_cases hc : c = '\n'
    · cases k with
      | zero => simp [nthNewline, hc, List.count_cons]
      | succ m =>
        simp only [nthNewline, hc, if_pos, List.count_cons]
        rw [if_neg (by omega)]
        simp only [Nat.succ_sub_one, Option.map_eq_none', ih m]
        simp
    · simp only [nthNewline, if_neg hc, List.count_cons]
      rw [if_neg (by simpa using hc)]
      simp only [Option.map_eq_none', ih k]
      simp

/-! The claims. -/

/-- Claim C1 (code bug): the guard of `move_cursor` in the source,
`0 >= idx && idx > self.text.len() as int`, is unsatisfiable — `idx` cannot
be at once nonpositive and larger than a length — so `move_cursor` is a
no-op for every buffer and every delta, in-range deltas included, where the
claim says an in-range delta sets the cursor to `cursor + delta`. -/
theorem move_cursor_never_moves (b : Buffer) (offset : Int) : b.move_cursor offset = b := by
  simp only [Buffer.move_cursor]
  split
  next h => exact absurd h (by omega)
  next => rfl

/-- Claim C2 (code bug): `insert_char` edits `text` and the cursor but never
touches the cached `lines`, so invariant I2 is broken by the very first
insertion into a buffer that satisfies it: here a one-line buffer holding
"a" with the cursor at 1 receives `insert_char 'b'`. -/
theorem insert_char_breaks_join_invariant :
    I2 ⟨none, [⟨['a'], 0⟩], 1, ['a']⟩
    ∧ ¬ I2 (Buffer.insert_char ⟨none, [⟨['a'], 0⟩], 1, ['a']⟩ 'b') := by
  decide

/-- Claim C3 (code bug): `get_cursor_screen_offset` holds a literal
`panic!("test {}", index)` that fires at the first newline found behind the
cursor, so the operation aborts on the buffer "a\n" with cursor 2 — the
claim says no public operation may abort. -/
theorem get_cursor_screen_offset_aborts :
    Buffer.get_cursor_screen_offset ⟨none, [], 2, ['a', '\n']⟩ = none := by
  decide

/-- Claim C4 (code bug): the `Right` arm of `shift_cursor` probes
`text[cursor + 1]` instead of `text[cursor]`: on "a\nb" with cursor 0 it
sees the newline at index 1 and stays put, where the claim says the
non-newline at index 0 lets the cursor advance to 1; and on "ab" with
cursor 1 the probe indexes `text[2]`, out of bounds. -/
theorem shift_cursor_right_wrong_probe :
    Buffer.shift_cursor ⟨none, [], 0, ['a', '\n', 'b']⟩ Direction.Right
      = some ⟨none, [], 0, ['a', '\n', 'b']⟩
    ∧ Buffer.shift_cursor ⟨none, [], 1, ['a', 'b']⟩ Direction.Right = none := by
  decide

/-- Claim C5 (code bug): on "a\nb" with the cursor on the first line,
`shift_cursor Up` passes the guard `current_line_num < last_line_num`
(0 < 1), calls `get_line_idx(-1)`, gets `None` and unwraps it — an abort —
where the claim says a missing adjacent line makes the call a no-op. -/
theorem shift_cursor_up_aborts_on_top_line :
    Buffer.shift_cursor ⟨none, [], 0, ['a', '\n', 'b']⟩ Direction.Up = none := by
  decide

/-- Claim C6 (code bug): the scanning loop of `get_cursor_screen_offset`
never counts anything — it falls through to `return 0` — so on "ab" with
cursor 2 the function yields 0 where the claim says the column, 2. -/
theorem get_cursor_screen_offset_zero_column :
    Buffer.get_cursor_screen_offset ⟨none, [], 2, ['a', 'b']⟩ = some 0 := by
  decide

/-- Claim C7 (code bug): `get_status_text` formats the path and the CURSOR
(`format!("{} {}", path.display(), self.cursor)`), not the line count; on
the repository's own test fixture (path "/some/file.txt", four cached
lines, cursor 0) it yields "/some/file.txt 0" where the test in buffer.rs
asserts "/some/file.txt, lines: 4". -/
theorem get_status_text_shows_cursor :
    Buffer.get_status_text ⟨some "/some/file.txt",
      [⟨['t', 'e', 's', 't'], 0⟩, ⟨[], 1⟩,
       ⟨['t', 'e', 'x', 't', ' ', 'f', 'i', 'l', 'e'], 2⟩,
       ⟨['c', 'o', 'n', 't', 'e', 'n', 't'], 3⟩], 0, []⟩ = "/some/file.txt 0"
    ∧ "/some/file.txt 0" ≠ "/some/file.txt, lines: 4" := by
  decide

/-- Claim C8, counterexample: on the text "ab\ncd" and line 1 (which does
not exceed the one newline present), `get_line_idx` returns 2 — the index
of the newline itself — while the claim, read as `lineStartClaimed`, says
3, one past it. -/
theorem get_line_idx_off_by_one_cex :
    Buffer.get_line_idx ['a', 'b', '\n', 'c', 'd'] 1 = some 2
    ∧ lineStartClaimed ['a', 'b', '\n', 'c', 'd'] 1 = some 3
    ∧ Buffer.get_line_idx ['a', 'b', '\n', 'c', 'd'] 1
        ≠ lineStartClaimed ['a', 'b', '\n', 'c', 'd'] 1 := by
  decide

/-- Claim C8, amended: for `ln ≥ 1`, `get_line_idx` returns the index of
the ln-th newline itself (one BEFORE the first character of line ln), not
one past it; `get_line_idx 0` returns 0 only when the text is nonempty and
does not begin with a newline; any other request — in particular one whose
line number exceeds the number of newlines, for which `nthNewline` is
`none` — is "not found". -/
theorem get_line_idx_characterization (text : List Char) (ln : Int) :
    Buffer.get_line_idx text ln =
      (if 1 ≤ ln then nthNewline text (ln - 1).toNat
       else if ln = 0 then
         (match text.head? with
          | some c => if c = '\n' then none else some 0
          | none => none)
       else none)
    ∧ ∀ k : Nat, (nthNewline text k = none ↔ text.count '\n' ≤ k) := by
  refine ⟨?_, nthNewline_eq_none_iff text⟩
  by_cases h1 : 1 ≤ ln
  · rw [if_pos h1]
    unfold Buffer.get_line_idx
    rw [glIdxLoop_of_lt text 0 0 ln (by omega)]
    have he : ln - 0 - 1 = ln - 1 := by omega
    rw [he]
    cases nthNewline text (ln - 1).toNat with
    | none => rfl
    | some a => simp
  · by_cases h0 : ln = 0
    · subst h0
      rw [if_neg h1, if_pos rfl]
      unfold Buffer.get_line_idx
      rw [glIdxLoop_at_eq]
      cases text with
      | nil => rfl
      | cons c t => rfl
    · rw [if_neg h1, if_neg h0]
      exact glIdxLoop_none_of_lt text 0 0 ln (by omega)

/-- Claim C9: with a rightward direction, `delete_char` erases exactly the
character at the cursor and leaves the cursor alone whenever
`cursor < text.length`, and at or past the end of the text the unguarded
`self.text.remove(self.cursor)` indexes out of range (modelled `none`). -/
theorem delete_char_right_spec (b : Buffer) :
    (b.cursor < b.text.length →
      b.delete_char Direction.Right = some { b with text := b.text.eraseIdx b.cursor })
    ∧ (b.text.length ≤ b.cursor → b.delete_char Direction.Right = none) := by
  constructor
  · intro h
    simp [Buffer.delete_char, Direction.is_left, Buffer.listRemoveAt, h]
  · intro h
    simp [Buffer.delete_char, Direction.is_left, Buffer.listRemoveAt, Nat.not_lt.mpr h]

/-- Claim C9, witness: deleting rightward in "ab" at cursor 0 erases the
'a'; doing so at cursor 2 (= length) aborts. -/
theorem delete_char_right_spec_witness :
    Buffer.delete_char ⟨none, [], 0, ['a', 'b']⟩ Direction.Right = some ⟨none, [], 0, ['b']⟩
    ∧ Buffer.delete_char ⟨none, [], 2, ['a', 'b']⟩ Direction.Right = none := by
  constructor
  · exact (delete_char_right_spec ⟨none, [], 0, ['a', 'b']⟩).1 (by decide)
  · exact (delete_char_right_spec ⟨none, [], 2, ['a', 'b']⟩).2 (by decide)

/-- Claim C10: on a nonempty `lines` cache, `get_line_at` (and its `mut`
twin) returns the line at `line_num` exactly when `line_num < lines.length`
and "not found" otherwise — captured as `some (lines.get? line_num)`; on an
empty cache the wrapping `lines.len() - 1` turns into 2^64 - 1, the
"not found" guard can never fire, and the lookup indexes out of bounds
(modelled `none`). -/
theorem get_line_at_spec (b : Buffer) (ln : Nat) (hlen : b.lines.length < U64)
    (hln : ln < U64) :
    (b.lines ≠ [] → b.get_line_at ln = some (b.lines.get? ln)
        ∧ b.get_line_at_mut ln = some (b.lines.get? ln))
    ∧ (b.lines = [] → b.get_line_at ln = none ∧ b.get_line_at_mut ln = none) := by
  have hmut : b.get_line_at_mut ln = b.get_line_at ln := rfl
  constructor
  · intro hne
    have hpos : 1 ≤ b.lines.length := by
      cases h : b.lines with
      | nil => exact absurd h hne
      | cons x xs => simp [h]
    rw [hmut]
    refine ⟨?_, ?_⟩ <;>
    · unfold Buffer.get_line_at
      rw [usub1_of_pos _ hpos hlen]
      by_cases hlt : ln < b.lines.length
      · rw [if_neg (by omega)]
        rw [List.get?_eq_get hlt]
      · rw [if_pos (by omega)]
        rw [List.get?_eq_none.mpr (by omega)]
  · intro hnil
    rw [hmut]
    refine ⟨?_, ?_⟩ <;>
    · unfold Buffer.get_line_at
      rw [hnil]
      simp only [List.length_nil, usub1_zero]
      rw [if_neg (by unfold U64 at hln ⊢; omega)]
      rfl

/-- Claim C10, witness: a one-line cache answers both a found and a
not-found lookup; the empty cache aborts. -/
theorem get_line_at_spec_witness :
    Buffer.get_line_at ⟨none, [⟨['a'], 0⟩], 0, []⟩ 0 = some (some ⟨['a'], 0⟩)
    ∧ Buffer.get_line_at ⟨none, [], 0, []⟩ 5 = none := by
  constructor
  · exact ((get_line_at_spec ⟨none, [⟨['a'], 0⟩], 0, []⟩ 0 (by decide) (by decide)).1
      (by decide)).1
  · exact ((get_line_at_spec ⟨none, [], 0, []⟩ 5 (by decide) (by decide)).2 rfl).1

end Iota
